import Mathlib

/-!
Verification of the TimeChart core against its specification.

The development shallowly embeds the three core components the claims are
about:

* `DataPointsBuffer` — the change-tracking sequence of
  `src/src/core/dataPointsBuffer.ts` (push/pop/unshift/shift/splice with the
  four mutation counters);
* `updateModel` — the scale/range update of `src/src/core/renderModel.ts`;
* `SeriesVertexArray`/`syncPoints` — the segmented GPU buffer manager of the
  line-chart renderer (`src/unnamed/part_000`).

JS numbers are modelled by `ℚ` (data coordinates) and `Int` (indices and
counters); `±Infinity` produced by empty `Math.min`/`Math.max` folds is
modelled by `WithBot (WithTop ℚ)`.  GPU calls (texture uploads, draw calls)
are modelled by their effect on a CPU-side mirror of the texture contents;
the d3 scale objects are modelled by their domain endpoints.
-/

set_option linter.all false

namespace TimeChart

/-- A chart data point `{x, y}` (renderModel.ts). JS float coordinates are
modelled by rationals; floating-point rounding is outside the claims. -/
structure DataPoint where
  x : ℚ
  y : ℚ
  deriving DecidableEq

/-- Shallow embedding of `DataPointsBuffer<T>` (dataPointsBuffer.ts).
`items` is the underlying array contents; the four fields mirror the
counters of the class.  Counters are `Int`, as the JS fields are plain
numbers and nothing in the class itself prevents negative values. -/
structure DataPointsBuffer (α : Type) where
  items : List α
  pushed_back : Int
  pushed_front : Int
  poped_back : Int
  poped_front : Int
  deriving DecidableEq

/-- The freshly-constructed buffer: all elements count as pushed to the back
(constructor, dataPointsBuffer.ts lines 40-44). -/
def mkBuffer (its : List α) : DataPointsBuffer α :=
  { items := its, pushed_back := its.length, pushed_front := 0
    poped_back := 0, poped_front := 0 }

/-- `_synced()` — resets all four counters after GPU synchronization. -/
def _synced (b : DataPointsBuffer α) : DataPointsBuffer α :=
  { b with pushed_back := 0, poped_back := 0, pushed_front := 0, poped_front := 0 }

/-- `push(...items)` — appends at the back and bumps `pushed_back`
(dataPointsBuffer.ts lines 72-75).  The JS method also returns the new
length, a pure function of the result, which is omitted here. -/
def push (b : DataPointsBuffer α) (its : List α) : DataPointsBuffer α :=
  { b with pushed_back := b.pushed_back + its.length, items := b.items ++ its }

/-- `pop()` (dataPointsBuffer.ts lines 81-95).  Returns the updated buffer
together with the removed element, `none` on an empty buffer.  `len` is the
length before the removal, as in the source. -/
def pop (b : DataPointsBuffer α) : DataPointsBuffer α × Option α :=
  match b.items.getLast? with
  | none => (b, none)
  | some r =>
    let len : Int := b.items.length
    let b' :=
      if b.pushed_back > 0 then { b with pushed_back := b.pushed_back - 1 }
      else if len - b.pushed_front > 0 then { b with poped_back := b.poped_back + 1 }
      else { b with pushed_front := b.pushed_front - 1 }
    ({ b' with items := b.items.dropLast }, some r)

/-- `unshift(...items)` — prepends at the front and bumps `pushed_front`
(dataPointsBuffer.ts lines 101-104). -/
def unshift (b : DataPointsBuffer α) (its : List α) : DataPointsBuffer α :=
  { b with pushed_front := b.pushed_front + its.length, items := its ++ b.items }

/-- `shift()` (dataPointsBuffer.ts lines 110-124). -/
def shift (b : DataPointsBuffer α) : DataPointsBuffer α × Option α :=
  match b.items with
  | [] => (b, none)
  | r :: rest =>
    let len : Int := b.items.length
    let b' :=
      if b.pushed_front > 0 then { b with pushed_front := b.pushed_front - 1 }
      else if len - b.pushed_back > 0 then { b with poped_front := b.poped_front + 1 }
      else { b with pushed_back := b.pushed_back - 1 }
    ({ b' with items := rest }, some r)

/-- Errors thrown by `splice`.  Each constructor carries the buffer state at
throw time: in JS the counter mutations made before a `throw` persist on
`this`.  `range` is the invalid-mutation `RangeError`; `bug` is the internal
consistency `Error` (the BUG throws). -/
inductive SpliceErr (α : Type) where
  | range (b : DataPointsBuffer α)
  | bug (b : DataPointsBuffer α)
  deriving DecidableEq

/-- Decidable equality on `Except`, for evaluating `splice` results in the
concrete witnesses. -/
instance {ε σ : Type} [DecidableEq ε] [DecidableEq σ] : DecidableEq (Except ε σ) := fun a c =>
  match a, c with
  | .error e, .error f =>
    if h : e = f then .isTrue (by rw [h]) else .isFalse (by simp [h])
  | .error _, .ok _ => .isFalse (by simp)
  | .ok _, .error _ => .isFalse (by simp)
  | .ok a, .ok c =>
    if h : a = c then .isTrue (by rw [h]) else .isFalse (by simp [h])

/-- Case 1 of `updateDelete`: deleting from the `pushed_front` region.
Returns the updated buffer and the remaining `deleteCount` and `len` (the
source's `d(c)` helper decrements both by `c`). -/
def delCase1 (start : Int) (b : DataPointsBuffer α) (dc len : Int) :
    DataPointsBuffer α × Int × Int :=
  if start < b.pushed_front then
    ({ b with pushed_front := b.pushed_front - min dc (b.pushed_front - start) },
      dc - min dc (b.pushed_front - start), len - min dc (b.pushed_front - start))
  else (b, dc, len)

/-- Case 2 of `updateDelete`: deleting from the start of the synced region. -/
def delCase2 (start : Int) (b : DataPointsBuffer α) (dc len : Int) :
    DataPointsBuffer α × Int × Int :=
  if start = b.pushed_front then
    ({ b with poped_front := b.poped_front + min dc (len - b.pushed_front - b.pushed_back) },
      dc - min dc (len - b.pushed_front - b.pushed_back),
      len - min dc (len - b.pushed_front - b.pushed_back))
  else (b, dc, len)

/-- Case 3 of `updateDelete` after its throw check: deleting the tail of the
synced region. -/
def delCase3 (start : Int) (b : DataPointsBuffer α) (dc len : Int) :
    DataPointsBuffer α × Int × Int :=
  ({ b with poped_back := b.poped_back + min dc (len - start - b.pushed_back) },
    dc - min dc (len - start - b.pushed_back), len - min dc (len - start - b.pushed_back))

/-- Case 4 of `updateDelete`: deleting from the `pushed_back` region; if
anything remains to delete afterwards the source throws its BUG error. -/
def delCase4 (start : Int) (b : DataPointsBuffer α) (dc len : Int) :
    Except (SpliceErr α) (DataPointsBuffer α) :=
  if dc - min dc (len - start) = 0 then
    .ok { b with pushed_back := b.pushed_back - min dc (len - start) }
  else .error (.bug { b with pushed_back := b.pushed_back - min dc (len - start) })

/-- `updateDelete(start, deleteCount, len)` (dataPointsBuffer.ts lines
130-171), assembled from the four case blocks of the source.  A case whose
guard fails contributes `c = 0`, so skipping its completion check is
equivalent to the source's control flow (the remaining `deleteCount` is
already known nonzero at that point). -/
def updateDelete (start deleteCount len : Int) (b : DataPointsBuffer α) :
    Except (SpliceErr α) (DataPointsBuffer α) :=
  if deleteCount = 0 then .ok b else
  let r1 := delCase1 start b deleteCount len
  if r1.2.1 = 0 then .ok r1.1 else
  let r2 := delCase2 start r1.1 r1.2.1 r1.2.2
  if r2.2.1 = 0 then .ok r2.1 else
  if start > r2.1.pushed_front ∧ start < r2.2.2 - r2.1.pushed_back then
    -- the mid-synced-region throw check of case 3
    if start + r2.2.1 < r2.2.2 - r2.1.pushed_back then .error (.range r2.1) else
    let r3 := delCase3 start r2.1 r2.2.1 r2.2.2
    if r3.2.1 = 0 then .ok r3.1 else delCase4 start r3.1 r3.2.1 r3.2.2
  else delCase4 start r2.1 r2.2.1 r2.2.2

/-- `updateInsert(start, insertCount, len)` (dataPointsBuffer.ts lines
177-186). -/
def updateInsert (start insertCount len : Int) (b : DataPointsBuffer α) :
    Except (SpliceErr α) (DataPointsBuffer α) :=
  if start ≤ b.pushed_front then
    .ok { b with pushed_front := b.pushed_front + insertCount }
  else if start ≥ len - b.pushed_back then
    .ok { b with pushed_back := b.pushed_back + insertCount }
  else
    .error (.range b)

/-- The `start` normalisation of `splice`: the `start === -Infinity` case of
the source is subsumed, for integer arguments, by the `max` with 0. -/
def spliceStart (len start0 : Int) : Int :=
  if start0 < 0 then max (len + start0) 0 else start0

/-- The `deleteCount` normalisation of `splice`: default to the rest of the
array, otherwise clamp into `[0, len - start]`. -/
def spliceCount (len start : Int) : Option Int → Int
  | none => len - start
  | some dc => min (max dc 0) (len - start)

/-- `splice(start, deleteCount?, ...items)` (dataPointsBuffer.ts lines
192-215).  The structural effect of `super.splice` on the array and its
return value are the standard take/drop decomposition, including the
clamping JS `Array.prototype.splice` performs when `start` exceeds the
length. -/
def splice (b : DataPointsBuffer α) (start0 : Int) (deleteCount? : Option Int)
    (its : List α) : Except (SpliceErr α) (DataPointsBuffer α × List α) :=
  let len : Int := b.items.length
  let start := spliceStart len start0
  let deleteCount := spliceCount len start deleteCount?
  match updateDelete start deleteCount len b with
  | .error e => .error e
  | .ok b1 =>
    match updateInsert start its.length (len - deleteCount) b1 with
    | .error e => .error e
    | .ok b2 =>
      let expectedLen := len - deleteCount + its.length
      let removed := (b2.items.drop start.toNat).take deleteCount.toNat
      let b3 := { b2 with
        items := b2.items.take start.toNat ++ its ++ b2.items.drop (start + deleteCount).toNat }
      if (b3.items.length : Int) ≠ expectedLen then .error (.bug b3)
      else .ok (b3, removed)

/-- `n` successive `pop()` calls (discarding the returned elements). -/
def popN (n : ℕ) (b : DataPointsBuffer α) : DataPointsBuffer α :=
  match n with
  | 0 => b
  | n + 1 => popN n (pop b).1

/-- `n` successive `shift()` calls (discarding the returned elements). -/
def shiftN (n : ℕ) (b : DataPointsBuffer α) : DataPointsBuffer α :=
  match n with
  | 0 => b
  | n + 1 => shiftN n (shift b).1

/-- The buffer invariant of claim C9: the four counters are non-negative and
the unsynced front and back regions fit in the buffer without overlapping. -/
def Inv (b : DataPointsBuffer α) : Prop :=
  0 ≤ b.pushed_front ∧ 0 ≤ b.pushed_back ∧ 0 ≤ b.poped_front ∧ 0 ≤ b.poped_back ∧
    b.pushed_front + b.pushed_back ≤ (b.items.length : Int)

instance (b : DataPointsBuffer α) : Decidable (Inv b) := by
  unfold Inv; infer_instance

/-- A `pop` on a non-empty buffer with unsynced back elements only decrements
`pushed_back` (first branch of the counter update). -/
lemma pop_of_pushed_back_pos (b : DataPointsBuffer α) (hne : b.items ≠ [])
    (hpb : 0 < b.pushed_back) :
    (pop b).1 = { b with pushed_back := b.pushed_back - 1, items := b.items.dropLast } := by
  obtain ⟨r, hr⟩ := Option.isSome_iff_exists.1 (List.getLast?_isSome.2 hne)
  simp [pop, hr, hpb]

/-- A `shift` on a non-empty buffer with unsynced front elements only
decrements `pushed_front`. -/
lemma shift_of_pushed_front_pos (b : DataPointsBuffer α) (hne : b.items ≠ [])
    (hpf : 0 < b.pushed_front) :
    (shift b).1 = { b with pushed_front := b.pushed_front - 1, items := b.items.tail } := by
  cases hb : b.items with
  | nil => exact absurd hb hne
  | cons x xs => simp [shift, hb, hpf]

/-- Popping exactly the `pushed_back` count brings `pushed_back` to zero and
leaves the other three counters untouched. -/
lemma popN_counters (k : ℕ) : ∀ b : DataPointsBuffer α,
    b.pushed_back = (k : Int) → k ≤ b.items.length →
    (popN k b).pushed_back = 0 ∧ (popN k b).pushed_front = b.pushed_front ∧
      (popN k b).poped_back = b.poped_back ∧ (popN k b).poped_front = b.poped_front := by
  induction k with
  | zero => intro b h _; exact ⟨h, rfl, rfl, rfl⟩
  | succ k ih =>
    intro b h hl
    have hne : b.items ≠ [] := by
      intro hnil; rw [hnil] at hl; simp at hl
    have hpb : 0 < b.pushed_back := by rw [h]; positivity
    have hstep := pop_of_pushed_back_pos b hne hpb
    have := ih (pop b).1 (by rw [hstep]; simp [h])
      (by rw [hstep]; simp [List.length_dropLast]; omega)
    have hdef : popN (k + 1) b = popN k (pop b).1 := rfl
    rw [hdef]
    simpa [hstep] using this

/-- Shifting exactly the `pushed_front` count brings `pushed_front` to zero
and leaves the other three counters untouched. -/
lemma shiftN_counters (k : ℕ) : ∀ b : DataPointsBuffer α,
    b.pushed_front = (k : Int) → k ≤ b.items.length →
    (shiftN k b).pushed_front = 0 ∧ (shiftN k b).pushed_back = b.pushed_back ∧
      (shiftN k b).poped_back = b.poped_back ∧ (shiftN k b).poped_front = b.poped_front := by
  induction k with
  | zero => intro b h _; exact ⟨h, rfl, rfl, rfl⟩
  | succ k ih =>
    intro b h hl
    have hne : b.items ≠ [] := by
      intro hnil; rw [hnil] at hl; simp at hl
    have hpf : 0 < b.pushed_front := by rw [h]; positivity
    have hstep := shift_of_pushed_front_pos b hne hpf
    have := ih (shift b).1 (by rw [hstep]; simp [h])
      (by rw [hstep]; simp [List.length_tail]; omega)
    have hdef : shiftN (k + 1) b = shiftN k (shift b).1 := rfl
    rw [hdef]
    simpa [hstep] using this

/-- Field-level characterisation of `delCase1`. -/
lemma delCase1_char {start dc len : Int} {b b1 : DataPointsBuffer α} {dc1 len1 : Int}
    (h : delCase1 start b dc len = (b1, dc1, len1)) :
    b1.items = b.items ∧ b1.pushed_back = b.pushed_back ∧
      b1.poped_front = b.poped_front ∧ b1.poped_back = b.poped_back ∧
      ((start < b.pushed_front ∧
          b1.pushed_front = b.pushed_front - min dc (b.pushed_front - start) ∧
          dc1 = dc - min dc (b.pushed_front - start) ∧
          len1 = len - min dc (b.pushed_front - start)) ∨
        (¬start < b.pushed_front ∧ b1.pushed_front = b.pushed_front ∧
          dc1 = dc ∧ len1 = len)) := by
  simp only [delCase1] at h
  split_ifs at h with hg <;>
    obtain ⟨rfl, rfl, rfl⟩ := Prod.mk.injEq .. ▸ h <;> simp [hg]

/-- Field-level characterisation of `delCase2`. -/
lemma delCase2_char {start dc len : Int} {b b1 : DataPointsBuffer α} {dc1 len1 : Int}
    (h : delCase2 start b dc len = (b1, dc1, len1)) :
    b1.items = b.items ∧ b1.pushed_back = b.pushed_back ∧
      b1.pushed_front = b.pushed_front ∧ b1.poped_back = b.poped_back ∧
      ((start = b.pushed_front ∧
          b1.poped_front = b.poped_front + min dc (len - b.pushed_front - b.pushed_back) ∧
          dc1 = dc - min dc (len - b.pushed_front - b.pushed_back) ∧
          len1 = len - min dc (len - b.pushed_front - b.pushed_back)) ∨
        (¬start = b.pushed_front ∧ b1.poped_front = b.poped_front ∧
          dc1 = dc ∧ len1 = len)) := by
  simp only [delCase2] at h
  split_ifs at h with hg <;>
    obtain ⟨rfl, rfl, rfl⟩ := Prod.mk.injEq .. ▸ h <;> simp [hg]

/-- Field-level characterisation of `delCase3`. -/
lemma delCase3_char {start dc len : Int} {b b1 : DataPointsBuffer α} {dc1 len1 : Int}
    (h : delCase3 start b dc len = (b1, dc1, len1)) :
    b1.items = b.items ∧ b1.pushed_back = b.pushed_back ∧
      b1.pushed_front = b.pushed_front ∧ b1.poped_front = b.poped_front ∧
      b1.poped_back = b.poped_back + min dc (len - start - b.pushed_back) ∧
      dc1 = dc - min dc (len - start - b.pushed_back) ∧
      len1 = len - min dc (len - start - b.pushed_back) := by
  simp only [delCase3] at h
  obtain ⟨rfl, rfl, rfl⟩ := Prod.mk.injEq .. ▸ h
  simp

/-- Field-level characterisation of the successful branch of `delCase4`. -/
lemma delCase4_char {start dc len : Int} {b b1 : DataPointsBuffer α}
    (h : delCase4 start b dc len = .ok b1) :
    b1.items = b.items ∧ b1.pushed_front = b.pushed_front ∧
      b1.poped_front = b.poped_front ∧ b1.poped_back = b.poped_back ∧
      b1.pushed_back = b.pushed_back - min dc (len - start) ∧
      dc - min dc (len - start) = 0 := by
  simp only [delCase4] at h
  split_ifs at h with hg
  simp only [Except.ok.injEq] at h
  subst h
  simp [hg]

/-- `updateDelete` never touches the element array, only counters. -/
lemma updateDelete_items {b b1 : DataPointsBuffer α} {start dc len : Int}
    (hok : updateDelete start dc len b = .ok b1) : b1.items = b.items := by
  simp only [updateDelete] at hok
  rcases hE1 : delCase1 start b dc len with ⟨b1', dc1, len1⟩
  rw [hE1] at hok; simp only at hok
  rcases hE2 : delCase2 start b1' dc1 len1 with ⟨b2', dc2, len2⟩
  rw [hE2] at hok; simp only at hok
  rcases hE3 : delCase3 start b2' dc2 len2 with ⟨b3', dc3, len3⟩
  rw [hE3] at hok; simp only at hok
  have h1 := delCase1_char hE1
  have h2 := delCase2_char hE2
  have h3 := delCase3_char hE3
  split_ifs at hok
  all_goals try simp only [Except.ok.injEq] at hok
  all_goals try exact absurd hok (by simp)
  all_goals try subst hok
  all_goals try have h4 := delCase4_char hok
  all_goals simp_all

/-- Counter bounds preserved through a successful `updateDelete` with
arguments in the range `splice` produces when `start` is within the array. -/
lemma updateDelete_ok_bounds {b b1 : DataPointsBuffer α} {start dc len : Int}
    (hstart : 0 ≤ start) (hdc0 : 0 ≤ dc) (hdc : dc ≤ len - start)
    (hpf : 0 ≤ b.pushed_front) (hpb : 0 ≤ b.pushed_back) (hqf : 0 ≤ b.poped_front)
    (hqb : 0 ≤ b.poped_back) (hsum : b.pushed_front + b.pushed_back ≤ len)
    (hok : updateDelete start dc len b = .ok b1) :
    0 ≤ b1.pushed_front ∧ 0 ≤ b1.pushed_back ∧ 0 ≤ b1.poped_front ∧ 0 ≤ b1.poped_back ∧
      b1.pushed_front + b1.pushed_back ≤ len - dc := by
  simp only [updateDelete] at hok
  rcases hE1 : delCase1 start b dc len with ⟨b1', dc1, len1⟩
  rw [hE1] at hok; simp only at hok
  rcases hE2 : delCase2 start b1' dc1 len1 with ⟨b2', dc2, len2⟩
  rw [hE2] at hok; simp only at hok
  rcases hE3 : delCase3 start b2' dc2 len2 with ⟨b3', dc3, len3⟩
  rw [hE3] at hok; simp only at hok
  have h1 := delCase1_char hE1
  have h2 := delCase2_char hE2
  have h3 := delCase3_char hE3
  split_ifs at hok
  all_goals try simp only [Except.ok.injEq] at hok
  all_goals try exact absurd hok (by simp)
  all_goals try subst hok
  all_goals try have h4 := delCase4_char hok
  all_goals omega

/-- The two successful branches of `updateInsert`. -/
lemma updateInsert_ok_cases {b b1 : DataPointsBuffer α} {s k l : Int}
    (hok : updateInsert s k l b = .ok b1) :
    (s ≤ b.pushed_front ∧ b1 = { b with pushed_front := b.pushed_front + k }) ∨
      (¬s ≤ b.pushed_front ∧ l - b.pushed_back ≤ s ∧
        b1 = { b with pushed_back := b.pushed_back + k }) := by
  simp only [updateInsert] at hok
  split_ifs at hok with h1 h2
  · simp only [Except.ok.injEq] at hok
    exact Or.inl ⟨h1, hok.symm⟩
  · simp only [Except.ok.injEq] at hok
    exact Or.inr ⟨h1, h2, hok.symm⟩

/-- C7: starting from a buffer with all four counters zero, pushing `k`
items at one end (`push` at the back, `unshift` at the front) and then
immediately popping `k` items from the same end (`pop` resp. `shift`)
without an intervening sync leaves all four counters at zero — the push and
pop cancel. -/
theorem claim_C7 (b : DataPointsBuffer α) (its : List α)
    (h : b.pushed_back = 0 ∧ b.pushed_front = 0 ∧ b.poped_back = 0 ∧ b.poped_front = 0) :
    ((popN its.length (push b its)).pushed_back = 0 ∧
      (popN its.length (push b its)).pushed_front = 0 ∧
      (popN its.length (push b its)).poped_back = 0 ∧
      (popN its.length (push b its)).poped_front = 0) ∧
    ((shiftN its.length (unshift b its)).pushed_back = 0 ∧
      (shiftN its.length (unshift b its)).pushed_front = 0 ∧
      (shiftN its.length (unshift b its)).poped_back = 0 ∧
      (shiftN its.length (unshift b its)).poped_front = 0) := by
  obtain ⟨hpb, hpf, hqb, hqf⟩ := h
  have h1 := popN_counters its.length (push b its)
    (by simp [push, hpb]) (by simp [push])
  have h2 := shiftN_counters its.length (unshift b its)
    (by simp [unshift, hpf]) (by simp [unshift])
  refine ⟨⟨h1.1, ?_, ?_, ?_⟩, ⟨?_, h2.1, ?_, ?_⟩⟩
  · rw [h1.2.1]; simpa [push] using hpf
  · rw [h1.2.2.1]; simpa [push] using hqb
  · rw [h1.2.2.2]; simpa [push] using hqf
  · rw [h2.2.1]; simpa [unshift] using hpb
  · rw [h2.2.2.1]; simpa [unshift] using hqb
  · rw [h2.2.2.2]; simpa [unshift] using hqf

/-- Witness for C7 at a concrete input: counters of `⟨[1,2],0,0,0,0⟩` are
zero, and pushing then popping `[7,8,9]` at either end cancels. -/
theorem claim_C7_witness :
    (((⟨[1, 2], 0, 0, 0, 0⟩ : DataPointsBuffer Int).pushed_back = 0 ∧
        (⟨[1, 2], 0, 0, 0, 0⟩ : DataPointsBuffer Int).pushed_front = 0 ∧
        (⟨[1, 2], 0, 0, 0, 0⟩ : DataPointsBuffer Int).poped_back = 0 ∧
        (⟨[1, 2], 0, 0, 0, 0⟩ : DataPointsBuffer Int).poped_front = 0) ∧
      ((popN 3 (push ⟨[1, 2], 0, 0, 0, 0⟩ [7, 8, 9])).pushed_back = 0 ∧
        (popN 3 (push ⟨[1, 2], 0, 0, 0, 0⟩ [7, 8, 9])).pushed_front = 0 ∧
        (popN 3 (push ⟨[1, 2], 0, 0, 0, 0⟩ [7, 8, 9])).poped_back = 0 ∧
        (popN 3 (push ⟨[1, 2], 0, 0, 0, 0⟩ [7, 8, 9])).poped_front = 0)) := by
  refine ⟨by decide, ?_⟩
  exact (claim_C7 ⟨[1, 2], 0, 0, 0, 0⟩ [7, 8, 9] (by decide)).1

/-- `updateInsert` never touches the element array, only counters. -/
lemma updateInsert_items {b b1 : DataPointsBuffer α} {s k l : Int}
    (hok : updateInsert s k l b = .ok b1) : b1.items = b.items := by
  rcases updateInsert_ok_cases hok with ⟨_, rfl⟩ | ⟨_, _, rfl⟩ <;> rfl

/-- `push` preserves the counter invariant. -/
lemma push_inv {b : DataPointsBuffer α} (h : Inv b) (xs : List α) : Inv (push b xs) := by
  simp only [Inv, push] at h ⊢
  simp only [List.length_append]
  push_cast
  omega

/-- `unshift` preserves the counter invariant. -/
lemma unshift_inv {b : DataPointsBuffer α} (h : Inv b) (xs : List α) : Inv (unshift b xs) := by
  simp only [Inv, unshift] at h ⊢
  simp only [List.length_append]
  push_cast
  omega

/-- `pop` preserves the counter invariant. -/
lemma pop_inv {b : DataPointsBuffer α} (h : Inv b) : Inv (pop b).1 := by
  simp only [Inv] at h ⊢
  rcases hl : b.items.getLast? with _ | r
  · simpa [pop, hl] using h
  · have hne : b.items ≠ [] := fun hnil => by rw [hnil] at hl; simp at hl
    have hlen : 1 ≤ b.items.length := List.length_pos.2 hne
    simp only [pop, hl]
    split_ifs with g1 g2 <;> simp [List.length_dropLast] <;> omega

/-- `shift` preserves the counter invariant. -/
lemma shift_inv {b : DataPointsBuffer α} (h : Inv b) : Inv (shift b).1 := by
  simp only [Inv] at h ⊢
  rcases hl : b.items with _ | ⟨r, rest⟩
  · simpa [shift, hl] using h
  · rw [hl] at h
    simp only [List.length_cons] at h
    simp only [shift, hl, List.length_cons]
    split_ifs with g1 g2 <;> simp <;> push_cast at h ⊢ <;> omega

/-- `spliceStart` is non-negative. -/
lemma spliceStart_nonneg (len s0 : Int) : 0 ≤ spliceStart len s0 := by
  simp only [spliceStart]; split_ifs <;> omega

/-- When the normalised start is within the array, the normalised
`deleteCount` lies in `[0, len - start]`. -/
lemma spliceCount_bounds {len start : Int} (h : start ≤ len) (dc? : Option Int) :
    0 ≤ spliceCount len start dc? ∧ spliceCount len start dc? ≤ len - start := by
  cases dc? <;> simp [spliceCount] <;> omega

/-- When the normalised start exceeds the array, the normalised
`deleteCount` equals `len - start` (which is negative). -/
lemma spliceCount_overrun {len start : Int} (h : len < start) (dc? : Option Int) :
    spliceCount len start dc? = len - start := by
  cases dc? <;> simp [spliceCount] <;> omega

/-- A successful `splice` preserves the counter invariant. -/
lemma splice_ok_inv {b b' : DataPointsBuffer α} {s0 : Int} {dc? : Option Int}
    {ins : List α} {rem : List α}
    (h : Inv b) (hok : splice b s0 dc? ins = .ok (b', rem)) : Inv b' := by
  obtain ⟨hpf, hpb, hqf, hqb, hsum⟩ := h
  simp only [splice] at hok
  split at hok
  · exact absurd hok (by simp)
  next b1 hUD =>
    split at hok
    · exact absurd hok (by simp)
    next b2 hUI =>
      split at hok
      next hchk => exact absurd hok (by simp)
      next hchk =>
        rw [ne_eq, not_not] at hchk
        simp only [Except.ok.injEq, Prod.mk.injEq] at hok
        obtain ⟨hb', -⟩ := hok
        subst hb'
        have hit1 := updateDelete_items hUD
        have hit2 := updateInsert_items hUI
        have hst := spliceStart_nonneg (b.items.length : Int) s0
        rcases le_or_lt (spliceStart (b.items.length : Int) s0) (b.items.length : Int)
          with hcase | hcase
        · obtain ⟨hdc0, hdcle⟩ := spliceCount_bounds hcase dc?
          have hbd := updateDelete_ok_bounds hst hdc0 hdcle hpf hpb hqf hqb hsum hUD
          rcases updateInsert_ok_cases hUI with ⟨hle, rfl⟩ | ⟨hgt, hge, rfl⟩ <;>
            (simp only at hchk
             refine ⟨?_, ?_, ?_, ?_, ?_⟩ <;> (try simp only []) <;> omega)
        · -- start beyond the array: the source's final length check throws,
          -- so this case contradicts a successful splice
          exfalso
          rw [spliceCount_overrun hcase dc?] at hchk
          rw [hit2, hit1] at hchk
          have h1 : (spliceStart (b.items.length : Int) s0 +
              ((b.items.length : Int) - spliceStart (b.items.length : Int) s0)).toNat
              = b.items.length := by omega
          rw [h1] at hchk
          simp only [List.drop_length, List.append_nil, List.length_append,
            List.length_take] at hchk
          push_cast at hchk
          omega

/-- `delCase1` is the identity when its guard fails. -/
lemma delCase1_id {start : Int} {b : DataPointsBuffer α} {dc len : Int}
    (h : ¬start < b.pushed_front) : delCase1 start b dc len = (b, dc, len) := by
  simp [delCase1, h]

/-- `delCase2` is the identity when its guard fails. -/
lemma delCase2_id {start : Int} {b : DataPointsBuffer α} {dc len : Int}
    (h : ¬start = b.pushed_front) : delCase2 start b dc len = (b, dc, len) := by
  simp [delCase2, h]

/-- A `RangeError` thrown by `updateDelete` (the mid-synced-region delete
check of case 3) carries the buffer exactly as it was: cases 1 and 2 cannot
have changed anything on the way to the throw. -/
lemma updateDelete_range_eq {b x : DataPointsBuffer α} {start dc len : Int}
    (h : updateDelete start dc len b = .error (.range x)) : x = b := by
  simp only [updateDelete] at h
  rcases hE1 : delCase1 start b dc len with ⟨b1', dc1, len1⟩
  rw [hE1] at h; simp only at h
  rcases hE2 : delCase2 start b1' dc1 len1 with ⟨b2', dc2, len2⟩
  rw [hE2] at h; simp only at h
  rcases hE3 : delCase3 start b2' dc2 len2 with ⟨b3', dc3, len3⟩
  rw [hE3] at h; simp only at h
  have h1 := delCase1_char hE1
  have h2 := delCase2_char hE2
  split_ifs at h with g0 g1 g2 g3 g4 g5
  all_goals try (simp only [delCase4] at h; split_ifs at h)
  all_goals try (simp only [Except.error.injEq, reduceCtorEq] at h)
  -- only the genuine range throw remains
  have hng1 : ¬start < b.pushed_front := by omega
  have hng2 : ¬start = b1'.pushed_front := by omega
  have e1 := (delCase1_id hng1).symm.trans hE1
  simp only [Prod.mk.injEq] at e1
  obtain ⟨eb1, edc1, elen1⟩ := e1
  have e2 := (delCase2_id hng2).symm.trans hE2
  simp only [Prod.mk.injEq] at e2
  obtain ⟨eb2, edc2, elen2⟩ := e2
  simp only [SpliceErr.range.injEq] at h
  rw [← h, ← eb2, ← eb1]

/-- A `RangeError` thrown by `updateInsert` carries the buffer it was called
on, and pins the insertion point strictly inside the synced region. -/
lemma updateInsert_range {b x : DataPointsBuffer α} {s k l : Int}
    (h : updateInsert s k l b = .error (.range x)) :
    x = b ∧ b.pushed_front < s ∧ s < l - b.pushed_back := by
  simp only [updateInsert] at h
  split_ifs at h with h1 h2
  simp only [Except.error.injEq, SpliceErr.range.injEq] at h
  exact ⟨h.symm, by omega, by omega⟩

/-- If `updateDelete` succeeded but the insertion point is still strictly
inside the synced region of the result, the delete must have been a no-op
(`deleteCount = 0`), so the buffer is unchanged. -/
lemma updateDelete_ok_mid_insert {b b1 : DataPointsBuffer α} {start dc len : Int}
    (hpf : 0 ≤ b.pushed_front) (hpb : 0 ≤ b.pushed_back)
    (hsum : b.pushed_front + b.pushed_back ≤ len)
    (hok : updateDelete start dc len b = .ok b1)
    (hins1 : b1.pushed_front < start) (hins2 : start < len - dc - b1.pushed_back) :
    b1 = b := by
  simp only [updateDelete] at hok
  rcases hE1 : delCase1 start b dc len with ⟨b1', dc1, len1⟩
  rw [hE1] at hok; simp only at hok
  rcases hE2 : delCase2 start b1' dc1 len1 with ⟨b2', dc2, len2⟩
  rw [hE2] at hok; simp only at hok
  rcases hE3 : delCase3 start b2' dc2 len2 with ⟨b3', dc3, len3⟩
  rw [hE3] at hok; simp only at hok
  have h1 := delCase1_char hE1
  have h2 := delCase2_char hE2
  have h3 := delCase3_char hE3
  split_ifs at hok
  all_goals try simp only [Except.ok.injEq] at hok
  all_goals try subst hok
  all_goals try have h4 := delCase4_char hok
  all_goals first
    | rfl
    | (exfalso; omega)

/-- C1: on a buffer whose counters partition it into a front region, a
synced middle and a back region, a `splice` that deletes a range starting
strictly inside the synced middle (and contained in it) fails with the
invalid-mutation `RangeError` — leaving the buffer untouched — when the
range does not extend to the synced region's tail boundary, and succeeds
when it does extend to the tail, in which case the effect on contents and
counters is exactly a pop-back of the deleted size from the synced region:
the elements are removed and `poped_back` increases by the deleted size
while the other three counters are unchanged. -/
theorem claim_C1 (b : DataPointsBuffer α) (start dc : Int) (h : Inv b)
    (hstart : b.pushed_front < start) (hdc : 1 ≤ dc)
    (hin : start + dc ≤ (b.items.length : Int) - b.pushed_back) :
    (start + dc < (b.items.length : Int) - b.pushed_back →
      splice b start (some dc) [] = .error (.range b)) ∧
    (start + dc = (b.items.length : Int) - b.pushed_back →
      splice b start (some dc) [] = .ok
        ({ b with
            items := b.items.take start.toNat ++ b.items.drop (start + dc).toNat
            poped_back := b.poped_back + dc },
          (b.items.drop start.toNat).take dc.toNat)) := by
  obtain ⟨hpf, hpb, hqf, hqb, hsum⟩ := h
  have hss : spliceStart (b.items.length : Int) start = start := by
    simp only [spliceStart]
    rw [if_neg (by omega)]
  have hsc : spliceCount (b.items.length : Int) start (some dc) = dc := by
    simp only [spliceCount]
    omega
  have h1 : ¬start < b.pushed_front := by omega
  have h2 : ¬start = b.pushed_front := by omega
  have hdc0 : ¬dc = 0 := by omega
  have hg : start > b.pushed_front ∧ start < (b.items.length : Int) - b.pushed_back :=
    ⟨hstart, by omega⟩
  constructor
  · intro hlt
    have hud : updateDelete start dc (b.items.length : Int) b = .error (.range b) := by
      simp only [updateDelete, delCase1_id h1, delCase2_id h2, if_neg hdc0, if_pos hg,
        if_pos hlt]
    simp only [splice, hss, hsc, hud]
  · intro heq
    have hnt : ¬(start + dc < (b.items.length : Int) - b.pushed_back) := by omega
    have hmin : min dc ((b.items.length : Int) - start - b.pushed_back) = dc := by omega
    have hud : updateDelete start dc (b.items.length : Int) b =
        .ok { b with poped_back := b.poped_back + dc } := by
      simp only [updateDelete, delCase1_id h1, delCase2_id h2, if_neg hdc0, if_pos hg,
        if_neg hnt, delCase3, hmin]
      simp
    have hui : updateInsert start ((0 : ℕ) : Int) ((b.items.length : Int) - dc)
        { b with poped_back := b.poped_back + dc } =
        .ok { b with poped_back := b.poped_back + dc } := by
      have hA : ¬start ≤ ({ b with poped_back := b.poped_back + dc } :
          DataPointsBuffer α).pushed_front := by simp; omega
      have hB : start ≥ (b.items.length : Int) - dc - ({ b with poped_back :=
          b.poped_back + dc } : DataPointsBuffer α).pushed_back := by simp; omega
      simp only [updateInsert, if_neg hA, if_pos hB]
      simp
    simp only [splice, hss, hsc, hud, List.length_nil, hui]
    have hck : ¬(((b.items.take start.toNat ++ ([] : List α) ++
        b.items.drop (start + dc).toNat).length : Int) ≠
        (b.items.length : Int) - dc + ((0 : ℕ) : Int)) := by
      simp only [List.append_nil, List.length_nil, List.length_append, List.length_take,
        List.length_drop]
      push_cast
      omega
    rw [if_neg hck]
    simp

/-- Witness for C1 at a concrete input: buffer `[1..5]` with one unsynced
element at each end; deleting `[3,4]` reaches the synced tail (index 4) and
acts as a pop-back of size 2. -/
theorem claim_C1_witness :
    Inv (⟨[1, 2, 3, 4, 5], 1, 1, 0, 0⟩ : DataPointsBuffer Int) ∧
      (2 + 2 < ((5 : ℕ) : Int) - 1 →
        splice (⟨[1, 2, 3, 4, 5], 1, 1, 0, 0⟩ : DataPointsBuffer Int) 2 (some 2) []
          = .error (.range ⟨[1, 2, 3, 4, 5], 1, 1, 0, 0⟩)) ∧
      (2 + 2 = ((5 : ℕ) : Int) - 1 →
        splice (⟨[1, 2, 3, 4, 5], 1, 1, 0, 0⟩ : DataPointsBuffer Int) 2 (some 2) []
          = .ok (⟨[1, 2, 5], 1, 1, 2, 0⟩, [3, 4])) := by
  have h := claim_C1 (⟨[1, 2, 3, 4, 5], 1, 1, 0, 0⟩ : DataPointsBuffer Int) 2 2
    (by decide) (by decide) (by decide) (by decide)
  refine ⟨by decide, ?_, ?_⟩
  · intro hlt
    exact h.1 hlt
  · intro heq
    have := h.2 heq
    simpa using this

/-- C2: any `splice` call on a buffer satisfying the counter invariant that
throws the invalid-mutation `RangeError` (mid-region insert or delete)
leaves the buffer — element sequence and all four counters — exactly as it
was before the call. -/
theorem claim_C2 (b : DataPointsBuffer α) (h : Inv b) (s0 : Int) (dc? : Option Int)
    (ins : List α) (b' : DataPointsBuffer α)
    (herr : splice b s0 dc? ins = .error (.range b')) : b' = b := by
  obtain ⟨hpf, hpb, hqf, hqb, hsum⟩ := h
  simp only [splice] at herr
  split at herr
  next e hUD =>
    simp only [Except.error.injEq] at herr
    subst herr
    exact updateDelete_range_eq hUD
  next b1 hUD =>
    split at herr
    next e hUI =>
      simp only [Except.error.injEq] at herr
      subst herr
      obtain ⟨hxb, hins1, hins2⟩ := updateInsert_range hUI
      rw [hxb]
      exact updateDelete_ok_mid_insert hpf hpb hsum hUD hins1 hins2
    next b2 hUI =>
      split at herr
      next hchk => exact absurd herr (by simp)
      next hchk => exact absurd herr (by simp)

/-- Witness for C2 at a concrete input: a mid-region insert on a fully
synced buffer throws the `RangeError` and leaves the buffer unchanged. -/
theorem claim_C2_witness :
    Inv (⟨[1, 2, 3], 0, 0, 0, 0⟩ : DataPointsBuffer Int) ∧
      splice (⟨[1, 2, 3], 0, 0, 0, 0⟩ : DataPointsBuffer Int) 1 (some 0) [9]
        = .error (.range ⟨[1, 2, 3], 0, 0, 0, 0⟩) ∧
      (⟨[1, 2, 3], 0, 0, 0, 0⟩ : DataPointsBuffer Int)
        = ⟨[1, 2, 3], 0, 0, 0, 0⟩ := by
  refine ⟨by decide, by decide, ?_⟩
  exact claim_C2 ⟨[1, 2, 3], 0, 0, 0, 0⟩ (by decide) 1 (some 0) [9]
    ⟨[1, 2, 3], 0, 0, 0, 0⟩ (by decide)

/-- C9: every `DataPointsBuffer` operation (`push`, `pop`, `unshift`,
`shift`, `splice`) that does not throw preserves the invariant that all
four counters are non-negative and `pushed_front + pushed_back ≤ length`,
i.e. the unsynced front and back regions never overlap and never exceed
the buffer. -/
theorem claim_C9 (b : DataPointsBuffer α) (xs : List α) (s0 : Int) (dc? : Option Int)
    (ins : List α) (b' : DataPointsBuffer α) (rem : List α) (h : Inv b) :
    Inv (push b xs) ∧ Inv (pop b).1 ∧ Inv (unshift b xs) ∧ Inv (shift b).1 ∧
      (splice b s0 dc? ins = .ok (b', rem) → Inv b') :=
  ⟨push_inv h xs, pop_inv h, unshift_inv h xs, shift_inv h,
    fun hok => splice_ok_inv h hok⟩

/-- Witness for C9 at a concrete input: the invariant holds for
`⟨[1,2,3,4,5],1,1,0,0⟩` and is preserved by the five operations; the
`splice` deletes the tail `[3,4,5]` of the synced region. -/
theorem claim_C9_witness :
    Inv (⟨[1, 2, 3, 4, 5], 1, 1, 0, 0⟩ : DataPointsBuffer Int) ∧
      splice (⟨[1, 2, 3, 4, 5], 1, 1, 0, 0⟩ : DataPointsBuffer Int) 2 (some 3) []
        = .ok (⟨[1, 2], 0, 1, 2, 0⟩, [3, 4, 5]) ∧
      (Inv (push (⟨[1, 2, 3, 4, 5], 1, 1, 0, 0⟩ : DataPointsBuffer Int) [9]) ∧
        Inv (pop (⟨[1, 2, 3, 4, 5], 1, 1, 0, 0⟩ : DataPointsBuffer Int)).1 ∧
        Inv (unshift (⟨[1, 2, 3, 4, 5], 1, 1, 0, 0⟩ : DataPointsBuffer Int) [9]) ∧
        Inv (shift (⟨[1, 2, 3, 4, 5], 1, 1, 0, 0⟩ : DataPointsBuffer Int)).1 ∧
        (splice (⟨[1, 2, 3, 4, 5], 1, 1, 0, 0⟩ : DataPointsBuffer Int) 2 (some 3) []
            = .ok (⟨[1, 2], 0, 1, 2, 0⟩, [3, 4, 5]) →
          Inv (⟨[1, 2], 0, 1, 2, 0⟩ : DataPointsBuffer Int))) := by
  refine ⟨by decide, by decide, ?_⟩
  exact claim_C9 ⟨[1, 2, 3, 4, 5], 1, 1, 0, 0⟩ [9] 2 (some 3) []
    ⟨[1, 2], 0, 1, 2, 0⟩ [3, 4, 5] (by decide)

/-! ### Domain scale model (renderModel.ts) -/

/-- Extended rationals: JS numbers together with the `±Infinity` produced
by the empty folds of `calcMinMaxY` and of `Math.min`/`Math.max`. -/
abbrev ExtQ := WithBot (WithTop ℚ)

/-- A finite JS number as an extended rational. -/
def toE (q : ℚ) : ExtQ := ((q : WithTop ℚ) : ExtQ)

/-- `{min, max}` pair (`MinMax` of renderModel.ts). -/
structure MinMax (α : Type) where
  min : α
  max : α
  deriving DecidableEq

/-- `calcMinMaxY(arr, start, end)` (renderModel.ts lines 12-21): minimum and
maximum of `arr[i].y` over `start ≤ i < end`, starting from
`{max: -Infinity, min: Infinity}`; the source's conditional updates are the
`min`/`max` fold on a linear order.  Call sites keep the indices in range;
out-of-range indices (which would crash in JS) read a default point. -/
def calcMinMaxY (arr : List DataPoint) (start stop : Int) : MinMax ExtQ :=
  (List.range (stop - start).toNat).foldl
    (fun acc i =>
      let v := toE (arr.getD (start + i).toNat ⟨0, 0⟩).y
      ⟨min acc.min v, max acc.max v⟩)
    ⟨⊤, ⊥⟩

/-- `unionMinMax(...items)` (renderModel.ts lines 23-28): `Math.min` over the
`min` components and `Math.max` over the `max` components, with the
empty-fold identities `Infinity` and `-Infinity`. -/
def unionMinMax (items : List (MinMax ExtQ)) : MinMax ExtQ :=
  ⟨(items.map MinMax.min).foldr min ⊤, (items.map MinMax.max).foldr max ⊥⟩

/-- A resolved `xRange`/`yRange` chart option: `'auto'`, absent, or a fixed
range. -/
inductive RangeOpt (α : Type) where
  | auto
  | none
  | fixed (r : MinMax α)
  deriving DecidableEq

/-- The chart options consulted by `updateModel`. -/
structure ChartOptions where
  realTime : Bool
  xRange : RangeOpt ℚ
  yRange : RangeOpt ℚ

/-- One entry of `options.series`: its data buffer. -/
structure SeriesOpt where
  data : DataPointsBuffer DataPoint

/-- The observable state of the `RenderModel`: the x-scale domain endpoints
and the recorded `xRange` and `yRange` fields.  The y-scale domain is set
from `yRange` through d3's `nice()` rounding, an external library call the
claims do not touch, so it is not tracked. -/
structure RenderModelState where
  xDomain : ℚ × ℚ
  xRange : Option (MinMax ℚ)
  yRange : Option (MinMax ExtQ)

/-- `RenderModel.updateModel()` (renderModel.ts lines 105-157).  Empty
series are filtered out and an all-empty series list returns early.  The
x-domain: real-time mode slides the current domain width to end at the data
maximum (taking precedence over the configured range), auto mode fits the
data, a configured fixed range is re-applied, and a missing range leaves the
domain alone.  The y-part unions the min/max of the newly pushed front and
back sub-ranges of every series with the previously recorded `yRange`. -/
def updateModel (o : ChartOptions) (m : RenderModelState) (seriesList : List SeriesOpt) :
    RenderModelState :=
  match seriesList.filter (fun s => 0 < s.data.items.length) with
  | [] => m
  | s0 :: rest =>
    let lastX := fun (s : SeriesOpt) => (s.data.items.getLast?.getD ⟨0, 0⟩).x
    let headX := fun (s : SeriesOpt) => (s.data.items.head?.getD ⟨0, 0⟩).x
    let maxDomain := rest.foldl (fun acc s => max acc (lastX s)) (lastX s0)
    let minDomain := rest.foldl (fun acc s => min acc (headX s)) (headX s0)
    let xDomain :=
      if o.realTime = true ∨ o.xRange = RangeOpt.auto then
        if o.realTime = true then
          (maxDomain - (m.xDomain.2 - m.xDomain.1), maxDomain)
        else (minDomain, maxDomain)
      else
        match o.xRange with
        | .fixed r => (r.min, r.max)
        | _ => m.xDomain
    let minMaxY := (s0 :: rest).flatMap (fun s =>
      [calcMinMaxY s.data.items 0 s.data.pushed_front,
        calcMinMaxY s.data.items ((s.data.items.length : Int) - s.data.pushed_back)
          (s.data.items.length : Int)])
    let minMaxY := match m.yRange with
      | some r => minMaxY ++ [r]
      | Option.none => minMaxY
    { xDomain := xDomain
      xRange := some ⟨minDomain, maxDomain⟩
      yRange := some (unionMinMax minMaxY) }

/-- Counterexample for C5: with a fixed `xRange = [0,10]` but `realTime`
enabled, one `updateModel` call on a series whose single point has
`x = 100` slides the x-domain to `(90, 100)`: the configured fixed range is
not kept, because `realTime` takes precedence in the source's branch order.
This refutes the claim's "regardless of the realTime option". -/
theorem claim_C5_counterexample :
    (updateModel ⟨true, .fixed ⟨0, 10⟩, .auto⟩ ⟨(0, 10), Option.none, Option.none⟩
        [⟨⟨[⟨100, 0⟩], 0, 0, 0, 0⟩⟩]).xDomain = ((90 : ℚ), (100 : ℚ)) ∧
      ((90 : ℚ), (100 : ℚ)) ≠ ((0 : ℚ), (10 : ℚ)) := by
  constructor
  · simp only [updateModel]
    norm_num [List.filter]
  · decide

/-- C5 amended: when `realTime` is disabled and a fixed (non-auto) `xRange`
was supplied, every `updateModel` call keeps the x-scale's domain equal to
the configured `[xRange.min, xRange.max]` (given that it held before the
call, as the constructor establishes), regardless of the series data.  (In
real-time mode the source instead slides the domain so its right edge is
the data maximum.) -/
theorem claim_C5_amended (o : ChartOptions) (m : RenderModelState)
    (seriesList : List SeriesOpt) (r : MinMax ℚ)
    (hrt : o.realTime = false) (hx : o.xRange = RangeOpt.fixed r)
    (hdom : m.xDomain = (r.min, r.max)) :
    (updateModel o m seriesList).xDomain = (r.min, r.max) := by
  simp only [updateModel]
  cases hf : seriesList.filter (fun s => 0 < s.data.items.length) with
  | nil => exact hdom
  | cons s0 rest =>
    simp [hrt, hx]

/-- Witness for C5's amended claim at a concrete input. -/
theorem claim_C5_amended_witness :
    (⟨false, .fixed ⟨0, 10⟩, .auto⟩ : ChartOptions).realTime = false ∧
      (⟨false, .fixed ⟨0, 10⟩, .auto⟩ : ChartOptions).xRange
        = RangeOpt.fixed ⟨0, 10⟩ ∧
      (⟨(0, 10), Option.none, Option.none⟩ : RenderModelState).xDomain
        = (((⟨0, 10⟩ : MinMax ℚ)).min, ((⟨0, 10⟩ : MinMax ℚ)).max) ∧
      (updateModel ⟨false, .fixed ⟨0, 10⟩, .auto⟩ ⟨(0, 10), Option.none, Option.none⟩
          [⟨⟨[⟨100, 0⟩], 0, 0, 0, 0⟩⟩]).xDomain
        = (((⟨0, 10⟩ : MinMax ℚ)).min, ((⟨0, 10⟩ : MinMax ℚ)).max) := by
  refine ⟨rfl, rfl, rfl, ?_⟩
  exact claim_C5_amended ⟨false, .fixed ⟨0, 10⟩, .auto⟩ ⟨(0, 10), Option.none, Option.none⟩
    [⟨⟨[⟨100, 0⟩], 0, 0, 0, 0⟩⟩] ⟨0, 10⟩ rfl rfl rfl

/-- Folding `min` over a list ending in `a` gives a value `≤ a`. -/
lemma foldr_min_append_le (xs : List ExtQ) (a : ExtQ) :
    (xs ++ [a]).foldr min ⊤ ≤ a := by
  induction xs with
  | nil => simpa using min_le_left a ⊤
  | cons x xs ih => simpa using le_trans (min_le_right x _) ih

/-- Folding `max` over a list ending in `a` gives a value `≥ a`. -/
lemma le_foldr_max_append (xs : List ExtQ) (a : ExtQ) :
    a ≤ (xs ++ [a]).foldr max ⊥ := by
  induction xs with
  | nil => simpa using le_max_left a ⊥
  | cons x xs ih => simpa using le_trans ih (le_max_right x _)

/-- One `updateModel` call never shrinks the recorded y-range: the new
`yRange` is the union of the pushed sub-ranges with the old `yRange`. -/
lemma updateModel_yRange_mono (o : ChartOptions) (m : RenderModelState)
    (seriesList : List SeriesOpt) (r : MinMax ExtQ) (hm : m.yRange = some r) :
    ∃ r', (updateModel o m seriesList).yRange = some r' ∧
      r'.min ≤ r.min ∧ r.max ≤ r'.max := by
  simp only [updateModel, hm]
  cases hf : seriesList.filter (fun s => 0 < s.data.items.length) with
  | nil => exact ⟨r, hm, le_refl _, le_refl _⟩
  | cons s0 rest =>
    refine ⟨_, rfl, ?_, ?_⟩
    · simp only [unionMinMax, List.map_append, List.map_cons, List.map_nil]
      exact foldr_min_append_le _ _
    · simp only [unionMinMax, List.map_append, List.map_cons, List.map_nil]
      exact le_foldr_max_append _ _

/-- C6: across any sequence of `updateModel` calls, the recorded y-range is
monotone: once `yRange` is non-null, its `min` never increases and its
`max` never decreases on any later update — in particular, popping points
never shrinks the y-domain union.  (The claim's "with at least one
non-empty series" qualification is not even needed: an update in which all
series are empty leaves the range unchanged.) -/
theorem claim_C6 (o : ChartOptions) (m : RenderModelState) (r : MinMax ExtQ)
    (hm : m.yRange = some r) (inputs : List (List SeriesOpt)) :
    ∃ r', (inputs.foldl (fun st l => updateModel o st l) m).yRange = some r' ∧
      r'.min ≤ r.min ∧ r.max ≤ r'.max := by
  induction inputs generalizing m r with
  | nil => exact ⟨r, hm, le_refl _, le_refl _⟩
  | cons l ls ih =>
    obtain ⟨r1, h1, hmin1, hmax1⟩ := updateModel_yRange_mono o m l r hm
    obtain ⟨r', h', hmin', hmax'⟩ := ih (updateModel o m l) r1 h1
    exact ⟨r', by simpa using h', le_trans hmin' hmin1, le_trans hmax1 hmax'⟩

/-- Witness for C6 at a concrete input: a model with recorded y-range
`[0, 1]` updated twice with a one-point series. -/
theorem claim_C6_witness :
    (⟨(0, 1), Option.none, some ⟨toE 0, toE 1⟩⟩ : RenderModelState).yRange
        = some ⟨toE 0, toE 1⟩ ∧
      ∃ r', (([[(⟨⟨[⟨5, 7⟩], 1, 0, 0, 0⟩⟩ : SeriesOpt)],
            [(⟨⟨[⟨5, 7⟩], 1, 0, 0, 0⟩⟩ : SeriesOpt)]].foldl
            (fun st l => updateModel ⟨false, .auto, .auto⟩ st l)
            ⟨(0, 1), Option.none, some ⟨toE 0, toE 1⟩⟩).yRange = some r' ∧
          r'.min ≤ (⟨toE 0, toE 1⟩ : MinMax ExtQ).min ∧
          (⟨toE 0, toE 1⟩ : MinMax ExtQ).max ≤ r'.max) := by
  refine ⟨rfl, ?_⟩
  exact claim_C6 ⟨false, .auto, .auto⟩ ⟨(0, 1), Option.none, some ⟨toE 0, toE 1⟩⟩
    ⟨toE 0, toE 1⟩ rfl [[⟨⟨[⟨5, 7⟩], 1, 0, 0, 0⟩⟩], [⟨⟨[⟨5, 7⟩], 1, 0, 0, 0⟩⟩]]

/-! ### Segmented GPU buffer manager (line-chart renderer, part_000) -/

def BUFFER_TEXTURE_WIDTH : Int := 256

def BUFFER_TEXTURE_HEIGHT : Int := 2048

def BUFFER_POINT_CAPACITY : Int := BUFFER_TEXTURE_WIDTH * BUFFER_TEXTURE_HEIGHT

def BUFFER_INTERVAL_CAPACITY : Int := BUFFER_POINT_CAPACITY - 2

/-- `Math.floor(a / b)` for integer arguments and positive `b`. -/
def jsFloorDiv (a b : Int) : Int := Int.fdiv a b

/-- `Math.ceil(a / b)` for integer arguments and positive `b`. -/
def jsCeilDiv (a b : Int) : Int := -Int.fdiv (-a) b

/-- The CPU-side mirror of one segment's texture: the point stored at each
flat index `p → (p mod W, p div W)`.  A fresh segment is zero-initialised
(the constructor uploads a zero `Float32Array`). -/
def Texture : Type := Int → DataPoint

def emptyTex : Texture := fun _ => ⟨0, 0⟩

/-- The clamped source index read by the fill loop of `syncPoints` for the
cell at flat position `p`:
`Math.max(Math.min(start + p - bufferPos, dataPoints.length - 1), 0)`. -/
def clampIndex (len start bufferPos p : Int) : Int :=
  max (min (start + p - bufferPos) (len - 1)) 0

/-- The row range `[rowStart, rowEnd)` uploaded by
`SeriesSegmentVertexArray.syncPoints` (part_000 lines 466-506), including
the two conditional padding-row adjustments of the source. -/
def rowBounds (len start n bufferPos : Int) : Int × Int :=
  let rowStart := jsFloorDiv bufferPos BUFFER_TEXTURE_WIDTH
  let rowEnd := jsCeilDiv (bufferPos + n) BUFFER_TEXTURE_WIDTH
  (if rowStart > 0 ∧ start = 0 ∧ bufferPos = rowStart * BUFFER_TEXTURE_WIDTH
    then rowStart - 1 else rowStart,
    if rowEnd < BUFFER_TEXTURE_HEIGHT ∧ start + n = len ∧
        bufferPos + n = rowEnd * BUFFER_TEXTURE_WIDTH
      then rowEnd + 1 else rowEnd)

/-- `syncPoints(start, n, bufferPos)`: the fill loop writes every cell of
rows `[rowStart, rowEnd)` — the flat positions `[rowStart·W, rowEnd·W)` —
with the data point at the clamped source index; `texSubImage2D` uploads
exactly those rows, so every other cell keeps its previous contents. -/
def syncPoints (data : List DataPoint) (start n bufferPos : Int) (tex : Texture) : Texture :=
  let rs := (rowBounds (data.length : Int) start n bufferPos).1
  let re := (rowBounds (data.length : Int) start n bufferPos).2
  fun p =>
    if rs * BUFFER_TEXTURE_WIDTH ≤ p ∧ p < re * BUFFER_TEXTURE_WIDTH then
      data.getD (clampIndex (data.length : Int) start bufferPos p).toNat ⟨0, 0⟩
    else tex p

/-- The state of `SeriesVertexArray`: the segment chain and the two valid
offsets. -/
structure SVA where
  segments : List Texture
  validStart : Int
  validEnd : Int

/-- The eviction loop of `popFront`: while `validStart` exceeds one
segment's interval capacity, delete the head segment (the GPU release is
external) and shift.  `fuel` bounds the iterations; callers pass more fuel
than the loop can run, as every iteration decreases `validStart` by
`BUFFER_INTERVAL_CAPACITY ≥ 1`. -/
def popFrontLoop (fuel : ℕ) (segs : List Texture) (validStart : Int) :
    List Texture × Int :=
  match fuel with
  | 0 => (segs, validStart)
  | fuel + 1 =>
    if validStart > BUFFER_INTERVAL_CAPACITY then
      popFrontLoop fuel segs.tail (validStart - BUFFER_INTERVAL_CAPACITY)
    else (segs, validStart)

/-- `SeriesVertexArray.popFront` (part_000 lines 563-577). -/
def popFront (d : DataPointsBuffer DataPoint) (a : SVA) : SVA :=
  if d.poped_front = 0 then a
  else
    let vs := a.validStart + d.poped_front
    let r := popFrontLoop (vs.toNat + 1) a.segments vs
    let hd := syncPoints d.items 0 0 r.2 (r.1.head?.getD emptyTex)
    { segments := hd :: r.1.tail, validStart := r.2, validEnd := a.validEnd }

/-- The eviction loop of `popBack`, symmetric at the tail. -/
def popBackLoop (fuel : ℕ) (segs : List Texture) (validEnd : Int) :
    List Texture × Int :=
  match fuel with
  | 0 => (segs, validEnd)
  | fuel + 1 =>
    if validEnd < BUFFER_POINT_CAPACITY - BUFFER_INTERVAL_CAPACITY then
      popBackLoop fuel segs.dropLast (validEnd + BUFFER_INTERVAL_CAPACITY)
    else (segs, validEnd)

/-- `SeriesVertexArray.popBack` (part_000 lines 578-592). -/
def popBack (d : DataPointsBuffer DataPoint) (a : SVA) : SVA :=
  if d.poped_back = 0 then a
  else
    let ve := a.validEnd - d.poped_back
    let r := popBackLoop
      ((BUFFER_POINT_CAPACITY - BUFFER_INTERVAL_CAPACITY - ve).toNat + 1) a.segments ve
    let lastSeg := syncPoints d.items (d.items.length : Int) 0 r.2 (r.1.getLast?.getD emptyTex)
    { segments := r.1.dropLast ++ [lastSeg], validStart := a.validStart, validEnd := r.2 }

/-- The fill loop of `pushFront`: fill backward from `validStart`,
unshifting a fresh segment (and restarting from `BUFFER_POINT_CAPACITY`)
whenever the current head fills up.  `numDPtoAdd` is decremented with the
pre-update `validStart`, exactly as in the source. -/
def pushFrontLoop (fuel : ℕ) (d : List DataPoint) (segs : List Texture)
    (validStart numDPtoAdd : Int) : List Texture × Int :=
  match fuel with
  | 0 => (segs, validStart)
  | fuel + 1 =>
    let n := min validStart numDPtoAdd
    let active := syncPoints d (numDPtoAdd - n) n (validStart - n) (segs.head?.getD emptyTex)
    let segs1 := active :: segs.tail
    let numDPtoAdd1 :=
      numDPtoAdd - (validStart - (BUFFER_POINT_CAPACITY - BUFFER_INTERVAL_CAPACITY))
    let validStart1 := validStart - n
    if validStart1 > 0 then (segs1, validStart1)
    else pushFrontLoop fuel d (emptyTex :: segs1) BUFFER_POINT_CAPACITY numDPtoAdd1

/-- `SeriesVertexArray.pushFront` (part_000 lines 597-622).  On an empty
chain a first segment is created and `validEnd = validStart =
BUFFER_POINT_CAPACITY - 1`. -/
def pushFront (d : DataPointsBuffer DataPoint) (a : SVA) : SVA :=
  if d.pushed_front = 0 then a
  else
    let init : List Texture × Int × Int :=
      if a.segments.length = 0 then
        ([emptyTex], BUFFER_POINT_CAPACITY - 1, BUFFER_POINT_CAPACITY - 1)
      else (a.segments, a.validStart, a.validEnd)
    let r := pushFrontLoop (d.pushed_front.toNat + 3) d.items init.1 init.2.1 d.pushed_front
    { segments := r.1, validStart := r.2, validEnd := init.2.2 }

/-- The fill loop of `pushBack`: fill forward from `validEnd`, appending a
fresh segment (and restarting from 0) whenever the current tail fills up.
Note `numDPtoAdd` can increase on the first iteration: the two boundary
points shared with the previous segment are synced again into the next
one. -/
def pushBackLoop (fuel : ℕ) (d : List DataPoint) (segs : List Texture)
    (validEnd numDPtoAdd : Int) : List Texture × Int :=
  match fuel with
  | 0 => (segs, validEnd)
  | fuel + 1 =>
    let n := min (BUFFER_POINT_CAPACITY - validEnd) numDPtoAdd
    let active := syncPoints d ((d.length : Int) - numDPtoAdd) n validEnd
      (segs.getLast?.getD emptyTex)
    let segs1 := segs.dropLast ++ [active]
    let numDPtoAdd1 := numDPtoAdd - (BUFFER_INTERVAL_CAPACITY - validEnd)
    let validEnd1 := validEnd + n
    if validEnd1 < BUFFER_POINT_CAPACITY then (segs1, validEnd1)
    else pushBackLoop fuel d (segs1 ++ [emptyTex]) 0 numDPtoAdd1

/-- `SeriesVertexArray.pushBack` (part_000 lines 624-652).  On an empty
chain a first segment is created and `validEnd = validStart = 1`. -/
def pushBack (d : DataPointsBuffer DataPoint) (a : SVA) : SVA :=
  if d.pushed_back = 0 then a
  else
    let init : List Texture × Int × Int :=
      if a.segments.length = 0 then ([emptyTex], 1, 1)
      else (a.segments, a.validStart, a.validEnd)
    let r := pushBackLoop (d.pushed_back.toNat + 3) d.items init.1 init.2.2 d.pushed_back
    { segments := r.1, validStart := init.2.1, validEnd := r.2 }

/-- `SeriesVertexArray.deinit` (part_000 lines 654-658): delete every
segment (the GPU release is external) and empty the chain.  It touches
nothing else — in particular no counter of the data buffer, which is
returned unchanged. -/
def deinit (d : DataPointsBuffer DataPoint) (a : SVA) :
    DataPointsBuffer DataPoint × SVA :=
  (d, { a with segments := [] })

/-- `SeriesVertexArray.syncBuffer` (part_000 lines 660-682): teardown when
the synced length drops below 2 (followed by zeroing the pop counters),
bootstrap of an empty chain from whichever side received more points, and
otherwise the four steps popFront, popBack, pushFront, pushBack in order. -/
def syncBuffer (d : DataPointsBuffer DataPoint) (a : SVA) :
    DataPointsBuffer DataPoint × SVA :=
  let len : Int := d.items.length
  let st :=
    if len - d.pushed_back - d.pushed_front < 2 then
      let r := deinit d a
      ({ r.1 with poped_front := 0, poped_back := 0 }, r.2)
    else (d, a)
  if st.2.segments.length = 0 then
    if 2 ≤ len then
      if st.1.pushed_front < st.1.pushed_back then
        let d1 := { st.1 with pushed_back := len }
        (d1, pushBack d1 st.2)
      else
        let d1 := { st.1 with pushed_front := len }
        (d1, pushFront d1 st.2)
    else st
  else
    (st.1, pushBack st.1 (pushFront st.1 (popBack st.1 (popFront st.1 st.2))))

/-- C4: whenever `syncBuffer` finds the total valid (synced) length has
dropped below 2 points, the teardown (`deinit`) deletes every segment and
empties the chain while leaving all four of the sequence's mutation
counters unchanged — the teardown itself resets no counter; it is the
owning sync cycle that clears them: `syncBuffer` zeroes
`poped_front`/`poped_back` right after the teardown, and its result indeed
has both pop counters at zero. -/
theorem claim_C4 (d : DataPointsBuffer DataPoint) (a : SVA)
    (h : (d.items.length : Int) - d.pushed_back - d.pushed_front < 2) :
    (deinit d a).2.segments = [] ∧ (deinit d a).1 = d ∧
      (syncBuffer d a).1.poped_front = 0 ∧ (syncBuffer d a).1.poped_back = 0 := by
  refine ⟨rfl, rfl, ?_, ?_⟩ <;>
    (simp only [syncBuffer, deinit, if_pos h]
     split_ifs <;> rfl)

/-- Witness for C4 at a concrete input: an empty sequence with stale pop
counters and a one-segment chain. -/
theorem claim_C4_witness :
    ((((⟨[], 0, 0, 5, 7⟩ : DataPointsBuffer DataPoint)).items.length : Int)
        - 0 - 0 < 2) ∧
      (deinit ⟨[], 0, 0, 5, 7⟩ ⟨[emptyTex], 3, 4⟩).2.segments = [] ∧
      (deinit ⟨[], 0, 0, 5, 7⟩ ⟨[emptyTex], 3, 4⟩).1 = ⟨[], 0, 0, 5, 7⟩ ∧
      (syncBuffer ⟨[], 0, 0, 5, 7⟩ ⟨[emptyTex], 3, 4⟩).1.poped_front = 0 ∧
      (syncBuffer ⟨[], 0, 0, 5, 7⟩ ⟨[emptyTex], 3, 4⟩).1.poped_back = 0 := by
  refine ⟨by decide, ?_⟩
  have h := claim_C4 ⟨[], 0, 0, 5, 7⟩ ⟨[emptyTex], 3, 4⟩ (by decide)
  exact ⟨h.1, h.2.1, h.2.2.1, h.2.2.2⟩

/-- The uploaded rows as claim C8 states them: base rows `⌊bufferPos/W⌋`
through `⌈(bufferPos+n)/W⌉` (floor and ceiling division on ℤ, `W = 256`),
except that one extra row is included at the front when the touched region
lies after the segment's very first row, its touched edge is row-aligned
(`bufferPos = rowStart·W`), and the affected global range touches the
sequence's own start (`start = 0`); and one extra row at the back when the
region lies before the segment's very last row, its touched edge is
row-aligned (`bufferPos + n = rowEnd·W`), and the global range touches the
sequence's end (`start + n = length`). -/
def uploadedRowsSpec (len start n bufferPos : Int) : Int × Int :=
  let lo := jsFloorDiv bufferPos BUFFER_TEXTURE_WIDTH
  let hi := jsCeilDiv (bufferPos + n) BUFFER_TEXTURE_WIDTH
  (if 0 < lo ∧ bufferPos = lo * BUFFER_TEXTURE_WIDTH ∧ start = 0 then lo - 1 else lo,
    if hi < BUFFER_TEXTURE_HEIGHT ∧ bufferPos + n = hi * BUFFER_TEXTURE_WIDTH ∧
        start + n = len then hi + 1 else hi)

/-- C8: for every `syncPoints(start, n, bufferPos)` call, the uploaded
texture region is exactly the rows given by `uploadedRowsSpec` — the
claim's `⌊bufferPos/W⌋` through `⌈(bufferPos+n)/W⌉` with the two
conditional extra rows: every cell outside those rows keeps its previous
contents, and every cell inside them is (re)written from the data buffer
at the clamped source index. -/
theorem claim_C8 (data : List DataPoint) (start n bufferPos : Int) (tex : Texture)
    (p : Int) :
    ((p < (uploadedRowsSpec (data.length : Int) start n bufferPos).1
          * BUFFER_TEXTURE_WIDTH ∨
        (uploadedRowsSpec (data.length : Int) start n bufferPos).2
          * BUFFER_TEXTURE_WIDTH ≤ p) →
      syncPoints data start n bufferPos tex p = tex p) ∧
    (((uploadedRowsSpec (data.length : Int) start n bufferPos).1
          * BUFFER_TEXTURE_WIDTH ≤ p ∧
        p < (uploadedRowsSpec (data.length : Int) start n bufferPos).2
          * BUFFER_TEXTURE_WIDTH) →
      syncPoints data start n bufferPos tex p =
        data.getD (clampIndex (data.length : Int) start bufferPos p).toNat ⟨0, 0⟩) := by
  have hb : rowBounds (data.length : Int) start n bufferPos
      = uploadedRowsSpec (data.length : Int) start n bufferPos := by
    simp only [rowBounds, uploadedRowsSpec, Prod.mk.injEq]
    exact ⟨if_congr (by tauto) rfl rfl, if_congr (by tauto) rfl rfl⟩
  constructor
  · intro hout
    simp only [syncPoints, hb]
    exact if_neg (fun hc => hout.elim (fun hlt => absurd hc.1 (not_le.2 hlt))
      (fun hge => absurd hc.2 (not_lt.2 hge)))
  · intro hin
    simp only [syncPoints, hb]
    exact if_pos hin

/-- Witness for C8 at a concrete input: a two-point buffer synced at the
texture start; a cell in row 1 (outside the single uploaded row 0) keeps
its previous contents. -/
theorem claim_C8_witness :
    ((300 : Int) < (uploadedRowsSpec ((([⟨1, 2⟩, ⟨3, 4⟩] : List DataPoint)).length : Int)
          0 2 0).1 * BUFFER_TEXTURE_WIDTH ∨
      (uploadedRowsSpec ((([⟨1, 2⟩, ⟨3, 4⟩] : List DataPoint)).length : Int) 0 2 0).2
          * BUFFER_TEXTURE_WIDTH ≤ (300 : Int)) ∧
      syncPoints [⟨1, 2⟩, ⟨3, 4⟩] 0 2 0 emptyTex 300 = emptyTex 300 := by
  have hside : ((300 : Int) < (uploadedRowsSpec ((([⟨1, 2⟩, ⟨3, 4⟩] : List DataPoint)).length
      : Int) 0 2 0).1 * BUFFER_TEXTURE_WIDTH ∨
      (uploadedRowsSpec ((([⟨1, 2⟩, ⟨3, 4⟩] : List DataPoint)).length : Int) 0 2 0).2
        * BUFFER_TEXTURE_WIDTH ≤ (300 : Int)) := by
    right
    decide
  exact ⟨hside, (claim_C8 [⟨1, 2⟩, ⟨3, 4⟩] 0 2 0 emptyTex 300).1 hside⟩

/-- C10 (amended): for every `syncPoints` fill-loop read on a non-empty
data buffer, the source index is clamped into `[0, length − 1]` — the loop
never accesses the data array out of bounds — and a cell whose unclamped
index falls before the data reads a copy of the first point while one
falling past the end reads a copy of the last point.  (A padding cell whose
clamped index lands strictly inside the data reads that neighbouring data
point instead — see the counterexample.) -/
theorem claim_C10_amended (data : List DataPoint) (hne : data ≠ [])
    (start n bufferPos p : Int) :
    (0 ≤ clampIndex (data.length : Int) start bufferPos p ∧
      clampIndex (data.length : Int) start bufferPos p ≤ (data.length : Int) - 1) ∧
      (start + p - bufferPos < 0 →
        data.getD (clampIndex (data.length : Int) start bufferPos p).toNat ⟨0, 0⟩
          = data.head hne) ∧
      ((data.length : Int) ≤ start + p - bufferPos →
        data.getD (clampIndex (data.length : Int) start bufferPos p).toNat ⟨0, 0⟩
          = data.getLast hne) := by
  have hlen : 0 < data.length := List.length_pos.2 hne
  refine ⟨by simp only [clampIndex]; omega, ?_, ?_⟩
  · intro hneg
    have h0 : (clampIndex (data.length : Int) start bufferPos p).toNat = 0 := by
      simp only [clampIndex]; omega
    rw [h0, List.getD_eq_getElem data _ hlen, List.head_eq_getElem_zero]
  · intro hge
    have h1 : (clampIndex (data.length : Int) start bufferPos p).toNat
        = data.length - 1 := by
      simp only [clampIndex]; omega
    have h2 : data.length - 1 < data.length := by omega
    rw [h1, List.getD_eq_getElem data _ h2, List.getLast_eq_getElem]

/-- Witness for C10's amended claim at a concrete input: a read far before
the buffer start is clamped to index 0 and yields the first point. -/
theorem claim_C10_witness :
    (([⟨1, 2⟩, ⟨3, 4⟩, ⟨5, 6⟩] : List DataPoint) ≠ []) ∧
      (0 ≤ clampIndex ((([⟨1, 2⟩, ⟨3, 4⟩, ⟨5, 6⟩] : List DataPoint)).length : Int) 5 20 0 ∧
        clampIndex ((([⟨1, 2⟩, ⟨3, 4⟩, ⟨5, 6⟩] : List DataPoint)).length : Int) 5 20 0
          ≤ ((([⟨1, 2⟩, ⟨3, 4⟩, ⟨5, 6⟩] : List DataPoint)).length : Int) - 1) ∧
      ((5 : Int) + 0 - 20 < 0 →
        ([⟨1, 2⟩, ⟨3, 4⟩, ⟨5, 6⟩] : List DataPoint).getD
            (clampIndex ((([⟨1, 2⟩, ⟨3, 4⟩, ⟨5, 6⟩] : List DataPoint)).length : Int)
              5 20 0).toNat ⟨0, 0⟩
          = ([⟨1, 2⟩, ⟨3, 4⟩, ⟨5, 6⟩] : List DataPoint).head (by decide)) := by
  have h := claim_C10_amended [⟨1, 2⟩, ⟨3, 4⟩, ⟨5, 6⟩] (by decide) 5 7 20 0
  exact ⟨by decide, h.1, h.2.1⟩

/-- The ten-point data buffer of the C10 counterexample, with `y = x`. -/
def tenPoints : List DataPoint :=
  [⟨0, 0⟩, ⟨1, 1⟩, ⟨2, 2⟩, ⟨3, 3⟩, ⟨4, 4⟩, ⟨5, 5⟩, ⟨6, 6⟩, ⟨7, 7⟩, ⟨8, 8⟩, ⟨9, 9⟩]

/-- Counterexample for C10: in `syncPoints(start = 5, n = 1, bufferPos = 5)`
on a ten-point buffer, the cell at flat position 4 lies in the uploaded row
but outside the synced range `[5, 6)` (its unclamped source index is 4), so
it is a padding cell — yet it is filled with `data[4] = (4,4)`, which is a
copy of neither the first point `(0,0)` nor the last point `(9,9)`.  This
refutes the claim that padding cells are filled with copies of the clamped
nearest (first or last) data point. -/
theorem claim_C10_counterexample :
    syncPoints tenPoints 5 1 5 emptyTex 4 = ⟨4, 4⟩ ∧
      ¬((5 : Int) ≤ 5 + 4 - 5 ∧ (5 : Int) + 4 - 5 < 5 + 1) ∧
      tenPoints.head (by decide) = ⟨0, 0⟩ ∧
      tenPoints.getLast (by decide) = ⟨9, 9⟩ ∧
      (⟨4, 4⟩ : DataPoint) ≠ ⟨0, 0⟩ ∧ (⟨4, 4⟩ : DataPoint) ≠ ⟨9, 9⟩ := by
  refine ⟨by decide, by decide, by decide, by decide, by decide, by decide⟩

end TimeChart
namespace TimeChart

lemma pushBackLoop_break {fuel : ℕ} {d : List DataPoint} {segs : List Texture}
    {ve k : Int} (h : ve + min (BUFFER_POINT_CAPACITY - ve) k < BUFFER_POINT_CAPACITY) :
    pushBackLoop (fuel + 1) d segs ve k =
      (segs.dropLast ++ [syncPoints d ((d.length : Int) - k)
          (min (BUFFER_POINT_CAPACITY - ve) k) ve (segs.getLast?.getD emptyTex)],
        ve + min (BUFFER_POINT_CAPACITY - ve) k) := by
  simp only [pushBackLoop]
  rw [if_pos h]

lemma pushBackLoop_cont {fuel : ℕ} {d : List DataPoint} {segs : List Texture}
    {ve k : Int} (h : ¬(ve + min (BUFFER_POINT_CAPACITY - ve) k < BUFFER_POINT_CAPACITY)) :
    pushBackLoop (fuel + 1) d segs ve k =
      pushBackLoop fuel d ((segs.dropLast ++ [syncPoints d ((d.length : Int) - k)
          (min (BUFFER_POINT_CAPACITY - ve) k) ve (segs.getLast?.getD emptyTex)])
          ++ [emptyTex]) 0 (k - (BUFFER_INTERVAL_CAPACITY - ve)) := by
  simp only [pushBackLoop]
  rw [if_neg h]

lemma c3step1 (data : List DataPoint) (hlen : data.length = 524286) :
    pushBack ⟨data, (524286 : Int), 0, 0, 0⟩ ⟨[], 0, 0⟩
      = ⟨[syncPoints data 0 524286 1 emptyTex], 1, 524287⟩ := by
  have hlenz : (data.length : Int) = 524286 := by rw [hlen]; norm_num
  simp only [pushBack, List.length_nil]
  norm_num
  rw [show (Int.toNat 524286 + 3) = 524288 + 1 from rfl]
  rw [pushBackLoop_break (by
    simp only [BUFFER_POINT_CAPACITY, BUFFER_TEXTURE_WIDTH, BUFFER_TEXTURE_HEIGHT]
    omega)]
  have hmin1 : min (BUFFER_POINT_CAPACITY - 1) (524286 : Int) = 524286 := by
    simp only [BUFFER_POINT_CAPACITY, BUFFER_TEXTURE_WIDTH, BUFFER_TEXTURE_HEIGHT]
    omega
  simp only [hmin1, hlenz, List.dropLast_single, List.getLast?_singleton,
    Option.getD_some, List.nil_append]
  try norm_num

lemma c3step2 (data : List DataPoint) (hlen : data.length = 524286) :
    syncBuffer (mkBuffer data) ⟨[], 0, 0⟩
      = (⟨data, (524286 : Int), 0, 0, 0⟩,
         ⟨[syncPoints data 0 524286 1 emptyTex], 1, 524287⟩) := by
  have hlenz : (data.length : Int) = 524286 := by rw [hlen]; norm_num
  have hd0 : mkBuffer data = ⟨data, (524286 : Int), 0, 0, 0⟩ := by
    simp only [mkBuffer, hlenz]
  rw [hd0]
  simp only [syncBuffer, deinit, hlenz]
  norm_num
  exact c3step1 data hlen

lemma c3step3 (data2 : List DataPoint) (hlen2 : data2.length = 524287) (T1 : Texture) :
    pushBack ⟨data2, (1 : Int), 0, 0, 0⟩ ⟨[T1], 1, 524287⟩
      = ⟨[syncPoints data2 524286 1 524287 T1,
          syncPoints data2 524285 2 0 emptyTex], 1, 2⟩ := by
  have hlenz : (data2.length : Int) = 524287 := by rw [hlen2]; norm_num
  simp only [pushBack, List.length_singleton]
  norm_num
  rw [show (4 : ℕ) = 3 + 1 from rfl]
  rw [pushBackLoop_cont (by
    simp only [BUFFER_POINT_CAPACITY, BUFFER_TEXTURE_WIDTH, BUFFER_TEXTURE_HEIGHT]
    omega)]
  have hm1 : min (BUFFER_POINT_CAPACITY - 524287) (1 : Int) = 1 := by
    simp only [BUFFER_POINT_CAPACITY, BUFFER_TEXTURE_WIDTH, BUFFER_TEXTURE_HEIGHT]
    omega
  have hk1 : (1 : Int) - (BUFFER_INTERVAL_CAPACITY - 524287) = 2 := by
    simp only [BUFFER_INTERVAL_CAPACITY, BUFFER_POINT_CAPACITY, BUFFER_TEXTURE_WIDTH,
      BUFFER_TEXTURE_HEIGHT]
    omega
  simp only [hm1, hk1, hlenz, List.dropLast_single, List.getLast?_singleton,
    Option.getD_some, List.nil_append]
  norm_num
  rw [show (3 : ℕ) = 2 + 1 from rfl]
  rw [pushBackLoop_break (by
    simp only [BUFFER_POINT_CAPACITY, BUFFER_TEXTURE_WIDTH, BUFFER_TEXTURE_HEIGHT]
    omega)]
  have hm2 : min (BUFFER_POINT_CAPACITY - 0) (2 : Int) = 2 := by
    simp only [BUFFER_POINT_CAPACITY, BUFFER_TEXTURE_WIDTH, BUFFER_TEXTURE_HEIGHT]
    omega
  simp only [hm2, hlenz]
  simp

lemma c3step4 (data2 : List DataPoint) (hlen2 : data2.length = 524287) (T1 : Texture) :
    syncBuffer ⟨data2, (1 : Int), 0, 0, 0⟩ ⟨[T1], 1, 524287⟩
      = (⟨data2, (1 : Int), 0, 0, 0⟩,
         ⟨[syncPoints data2 524286 1 524287 T1,
           syncPoints data2 524285 2 0 emptyTex], 1, 2⟩) := by
  have hlenz : (data2.length : Int) = 524287 := by rw [hlen2]; norm_num
  simp only [syncBuffer, deinit, hlenz, popFront, popBack, pushFront]
  norm_num
  exact c3step3 data2 hlen2 T1

lemma c3evalY0 (data2 : List DataPoint) (hlen2 : data2.length = 524287) :
    syncPoints data2 524285 2 0 emptyTex 0 = data2.getD 524285 ⟨0, 0⟩ := by
  have hlenz : (data2.length : Int) = 524287 := by rw [hlen2]; norm_num
  have hrow : rowBounds (524287 : Int) 524285 2 0 = (0, 1) := by decide
  have hcl : (clampIndex (524287 : Int) 524285 0 0).toNat = 524285 := by decide
  simp only [syncPoints, hlenz, hrow]
  rw [if_pos (by
    simp only [BUFFER_TEXTURE_WIDTH]
    omega)]
  rw [hcl]

lemma c3evalY1 (data2 : List DataPoint) (hlen2 : data2.length = 524287) :
    syncPoints data2 524285 2 0 emptyTex 1 = data2.getD 524286 ⟨0, 0⟩ := by
  have hlenz : (data2.length : Int) = 524287 := by rw [hlen2]; norm_num
  have hrow : rowBounds (524287 : Int) 524285 2 0 = (0, 1) := by decide
  have hcl : (clampIndex (524287 : Int) 524285 0 1).toNat = 524286 := by decide
  simp only [syncPoints, hlenz, hrow]
  rw [if_pos (by
    simp only [BUFFER_TEXTURE_WIDTH]
    omega)]
  rw [hcl]

lemma c3evalX0 (data2 : List DataPoint) (hlen2 : data2.length = 524287) (T1 : Texture) :
    syncPoints data2 524286 1 524287 T1 524286 = data2.getD 524285 ⟨0, 0⟩ := by
  have hlenz : (data2.length : Int) = 524287 := by rw [hlen2]; norm_num
  have hrow : rowBounds (524287 : Int) 524286 1 524287 = (2047, 2048) := by decide
  have hcl : (clampIndex (524287 : Int) 524286 524287 524286).toNat = 524285 := by decide
  simp only [syncPoints, hlenz, hrow]
  rw [if_pos (by
    simp only [BUFFER_TEXTURE_WIDTH]
    omega)]
  rw [hcl]

lemma c3evalX1 (data2 : List DataPoint) (hlen2 : data2.length = 524287) (T1 : Texture) :
    syncPoints data2 524286 1 524287 T1 524287 = data2.getD 524286 ⟨0, 0⟩ := by
  have hlenz : (data2.length : Int) = 524287 := by rw [hlen2]; norm_num
  have hrow : rowBounds (524287 : Int) 524286 1 524287 = (2047, 2048) := by decide
  have hcl : (clampIndex (524287 : Int) 524286 524287 524287).toNat = 524286 := by decide
  simp only [syncPoints, hlenz, hrow]
  rw [if_pos (by
    simp only [BUFFER_TEXTURE_WIDTH]
    omega)]
  rw [hcl]

/-- The first `update` cycle of the boundary scenario: `syncBuffer` on a
fresh buffer holding the already-pushed points, with an empty segment
chain. -/
def c3sync1 (data : List DataPoint) : DataPointsBuffer DataPoint × SVA :=
  syncBuffer (mkBuffer data) ⟨[], 0, 0⟩

/-- The second `update` cycle: after `_synced()` marks the first cycle's
upload committed and one further point `p` is pushed. -/
def c3sync2 (data : List DataPoint) (p : DataPoint) :
    DataPointsBuffer DataPoint × SVA :=
  syncBuffer (push (_synced (c3sync1 data).1) [p]) (c3sync1 data).2

/-- The property claimed at the segment-creation boundary: the first sync
yields one segment with `validEnd = CAP - 1` (no spare interval capacity),
and the sync after one further push yields two segments whose last two
cells (of the first) and first two cells (of the second) hold the same two
boundary points — the last old point and the new point `p`. -/
def segmentBoundaryShared (data : List DataPoint) (p : DataPoint) : Prop :=
  (c3sync1 data).2.segments.length = 1 ∧
  (c3sync1 data).2.validEnd = BUFFER_POINT_CAPACITY - 1 ∧
  ∃ S1 S2 : Texture, (c3sync2 data p).2.segments = [S1, S2] ∧
    S1 (BUFFER_POINT_CAPACITY - 2) = S2 0 ∧
    S1 (BUFFER_POINT_CAPACITY - 1) = S2 1 ∧
    S2 0 = data.getD (data.length - 1) ⟨0, 0⟩ ∧
    S2 1 = p

/-- C3: starting from an empty segment chain, pushing exactly CAP - 2
points (CAP = 256 * 2048) and running `syncBuffer` produces exactly one
segment with no spare interval capacity (`validEnd = CAP - 1`), and pushing
one further point then running `syncBuffer` creates a second segment into
which the 2 boundary points shared with the first segment are copied: the
first segment's last two cells and the second segment's first two cells
hold the same two points, namely the last of the original points and the
newly pushed one. -/
theorem claim_C3 (data : List DataPoint) (p : DataPoint)
    (hlen : data.length = 524286) : segmentBoundaryShared data p := by
  have hs1 : c3sync1 data
      = (⟨data, (524286 : Int), 0, 0, 0⟩,
         ⟨[syncPoints data 0 524286 1 emptyTex], 1, 524287⟩) := c3step2 data hlen
  have hlen2 : (data ++ [p]).length = 524287 := by simp [hlen]
  have hpush : push (_synced (c3sync1 data).1) [p]
      = ⟨data ++ [p], (1 : Int), 0, 0, 0⟩ := by
    rw [hs1]
    rfl
  have hs2 : c3sync2 data p
      = (⟨data ++ [p], (1 : Int), 0, 0, 0⟩,
         ⟨[syncPoints (data ++ [p]) 524286 1 524287
             (syncPoints data 0 524286 1 emptyTex),
           syncPoints (data ++ [p]) 524285 2 0 emptyTex], 1, 2⟩) := by
    simp only [c3sync2]
    rw [hpush, hs1]
    exact c3step4 (data ++ [p]) hlen2 _
  refine ⟨?_, ?_,
    syncPoints (data ++ [p]) 524286 1 524287 (syncPoints data 0 524286 1 emptyTex),
    syncPoints (data ++ [p]) 524285 2 0 emptyTex, ?_, ?_, ?_, ?_, ?_⟩
  · rw [hs1]
    rfl
  · rw [hs1]
    show (524287 : Int) = BUFFER_POINT_CAPACITY - 1
    decide
  · rw [hs2]
  · rw [show BUFFER_POINT_CAPACITY - 2 = (524286 : Int) from by decide]
    rw [c3evalX0 _ hlen2, c3evalY0 _ hlen2]
  · rw [show BUFFER_POINT_CAPACITY - 1 = (524287 : Int) from by decide]
    rw [c3evalX1 _ hlen2, c3evalY1 _ hlen2]
  · rw [c3evalY0 _ hlen2, hlen]
    rw [show (524286 : ℕ) - 1 = 524285 from rfl]
    exact List.getD_append _ _ _ _ (by omega)
  · rw [c3evalY1 _ hlen2]
    rw [List.getD_append_right _ _ _ _ (by omega), hlen]
    rfl

/-- Witness for C3 at the concrete data list of 524286 copies of the
origin point and the new point `(1, 1)`. -/
theorem claim_C3_witness :
    (List.replicate 524286 (⟨0, 0⟩ : DataPoint)).length = 524286 ∧
    segmentBoundaryShared (List.replicate 524286 (⟨0, 0⟩ : DataPoint)) ⟨1, 1⟩ :=
  ⟨by rw [List.length_replicate], claim_C3 (List.replicate 524286 ⟨0, 0⟩) ⟨1, 1⟩
    (by rw [List.length_replicate])⟩

end TimeChart
